import Mathlib

set_option maxHeartbeats 1000000
set_option linter.unusedVariables false

/-!
Shallow embedding of `src/Implied_PE_Multiple.py` (class `ImpliedPECalculator`).

Python floats are modelled as rationals (`ℚ`).  A raised Python exception
(`ZeroDivisionError`) is modelled by `none` in an `Option` result.  The Python
`dict` arguments and results are modelled as insertion-ordered association
lists, matching the insertion-order iteration semantics of Python dicts.
-/

/-- Embedding of `ImpliedPECalculator.calculate_implied_pe` (lines 8-28).
The source computes `retention_ratio = 1 - payout_ratio` (unused), then
`forward_eps = current_eps * (1 + growth_rate)` and returns
`current_price / forward_eps`; Python raises `ZeroDivisionError` (modelled as
`none`) exactly when `forward_eps` is zero.  The source default
`payout_ratio=0` is applied explicitly at call sites below. -/
def calculate_implied_pe (current_price current_eps growth_rate payout_ratio : ℚ) :
    Option ℚ :=
  let retention_ratio := 1 - payout_ratio
  let forward_eps := current_eps * (1 + growth_rate)
  if forward_eps = 0 then none
  else some (current_price / forward_eps)

/-- Embedding of `numpy.median` applied to a list of numbers (line 46 of the
source).  `np.median` of an empty array returns NaN (with a RuntimeWarning)
rather than raising; the NaN sentinel is modelled as `none`.  For a non-empty
list it sorts the values and returns the middle element for an odd count, and
the average of the two middle elements for an even count. -/
def npMedian (l : List ℚ) : Option ℚ :=
  if l.isEmpty then none
  else
    let s := l.insertionSort (· ≤ ·)
    let n := s.length
    some (if n % 2 = 1 then s.getD (n / 2) 0
      else (s.getD (n / 2 - 1) 0 + s.getD (n / 2) 0) / 2)

/-- Result dictionary of `calculate_industry_implied_pe`: the keys
`'individual_multiples'` and `'median_pe'`.  `median_pe` is `none` when
`np.median` produced its NaN sentinel (empty peer set). -/
structure IndustryResult where
  individual_multiples : List (String × ℚ)
  median_pe : Option ℚ
deriving DecidableEq

/-- The `for company, (price, eps, growth) in peer_data.items()` loop of
`calculate_industry_implied_pe` (lines 41-44): builds the `pe_multiples`
mapping in input order; a `ZeroDivisionError` raised by any iteration aborts
the whole loop (modelled by `none`).  `calculate_implied_pe` is called without
`payout_ratio`, so the source default `0` applies. -/
def peLoop : List (String × ℚ × ℚ × ℚ) → Option (List (String × ℚ))
  | [] => some []
  | x :: rest =>
    match calculate_implied_pe x.2.1 x.2.2.1 x.2.2.2 0 with
    | none => none
    | some pe => (peLoop rest).map (fun tail => (x.1, pe) :: tail)

/-- Embedding of `ImpliedPECalculator.calculate_industry_implied_pe`
(lines 30-51): runs the peer loop, then returns the dictionary of individual
multiples together with `np.median` of the collected values. -/
def calculate_industry_implied_pe (peer_data : List (String × ℚ × ℚ × ℚ)) :
    Option IndustryResult :=
  (peLoop peer_data).map (fun pe_multiples =>
    { individual_multiples := pe_multiples
      median_pe := npMedian (pe_multiples.map Prod.snd) })

/-- Round-half-to-even of a rational to an integer, the rounding used by
Python `format` when printing a value to a fixed number of decimals. -/
def roundHalfEven (q : ℚ) : ℤ :=
  let f := ⌊q⌋
  if q - f < 1 / 2 then f
  else if 1 / 2 < q - f then f + 1
  else if f % 2 = 0 then f else f + 1

/-- Embedding of the Python format expression `f'...:.1%'` used for the grid
labels (lines 78-79): the value times 100, printed with exactly one decimal
digit and a trailing percent sign.  The sign is taken from the input value
itself, as Python does: a negative value whose digits round to zero still
prints as "-0.0%".  The digit magnitude is `roundHalfEven` of the absolute
value; `roundHalfEven` is symmetric under negation, so `natAbs` of the
rounding of the signed value gives exactly that. -/
def formatPercent (q : ℚ) : String :=
  let n := roundHalfEven (q * 1000)
  let sign := if q < 0 then "-" else ""
  let m := n.natAbs
  sign ++ toString (m / 10) ++ "." ++ toString (m % 10) ++ "%"

/-- The inner `for payout in payout_ratios` loop of `sensitivity_analysis`
(lines 71-74): one row of the sensitivity matrix; a raised
`ZeroDivisionError` aborts the computation. -/
def rowLoop (current_price current_eps growth : ℚ) : List ℚ → Option (List ℚ)
  | [] => some []
  | payout :: rest =>
    match calculate_implied_pe current_price current_eps growth payout with
    | none => none
    | some pe => (rowLoop current_price current_eps growth rest).map
        (fun tail => pe :: tail)

/-- The outer `for growth in growth_rates` loop of `sensitivity_analysis`
(lines 69-75): collects the rows of the sensitivity matrix. -/
def gridLoop (current_price current_eps : ℚ) (payout_ratios : List ℚ) :
    List ℚ → Option (List (List ℚ))
  | [] => some []
  | growth :: rest =>
    match rowLoop current_price current_eps growth payout_ratios with
    | none => none
    | some row => (gridLoop current_price current_eps payout_ratios rest).map
        (fun tail => row :: tail)

/-- The `pandas.DataFrame` returned by `sensitivity_analysis`: the dense cell
matrix plus the formatted row labels (`index`) and column labels. -/
structure SensitivityResult where
  values : List (List ℚ)
  index : List String
  columns : List String
deriving DecidableEq

/-- Embedding of `ImpliedPECalculator.sensitivity_analysis` (lines 53-79):
builds the nested-loop matrix, then labels rows by the formatted growth rates
and columns by the formatted payout ratios. -/
def sensitivity_analysis (current_price current_eps : ℚ)
    (growth_rates payout_ratios : List ℚ) : Option SensitivityResult :=
  (gridLoop current_price current_eps payout_ratios growth_rates).map
    (fun sensitivity_matrix =>
      { values := sensitivity_matrix
        index := growth_rates.map formatPercent
        columns := payout_ratios.map formatPercent })

/-- Two lists of rationals that are permutations of one another have the same
insertion sort: both sorts are sorted and mutually permuted. -/
theorem insertionSort_eq_of_perm {l₁ l₂ : List ℚ} (h : l₁.Perm l₂) :
    l₁.insertionSort (· ≤ ·) = l₂.insertionSort (· ≤ ·) :=
  List.eq_of_perm_of_sorted
    ((List.perm_insertionSort _ l₁).trans (h.trans (List.perm_insertionSort _ l₂).symm))
    (List.sorted_insertionSort _ l₁) (List.sorted_insertionSort _ l₂)

/-- The embedded `np.median` depends only on the multiset of values. -/
theorem npMedian_perm {l₁ l₂ : List ℚ} (h : l₁.Perm l₂) :
    npMedian l₁ = npMedian l₂ := by
  have hlen := h.length_eq
  have hempty : l₁.isEmpty = l₂.isEmpty := by
    cases l₁ <;> cases l₂ <;> simp_all
  unfold npMedian
  rw [hempty, insertionSort_eq_of_perm h]

/-- When every peer has a nonzero forward EPS, the peer loop succeeds and
returns, in input order, each company paired with `price / (eps * (1 + growth))`. -/
theorem peLoop_eq_map (peer_data : List (String × ℚ × ℚ × ℚ))
    (h : ∀ x ∈ peer_data, x.2.2.1 * (1 + x.2.2.2) ≠ 0) :
    peLoop peer_data =
      some (peer_data.map (fun x => (x.1, x.2.1 / (x.2.2.1 * (1 + x.2.2.2))))) := by
  induction peer_data with
  | nil => rfl
  | cons a t ih =>
    have ha := h a (List.mem_cons_self a t)
    have ht := ih (fun x hx => h x (List.mem_cons_of_mem a hx))
    simp [peLoop, calculate_implied_pe, ha, ht]

/-- If some peer has a zero forward EPS, the peer loop raises (returns `none`). -/
theorem peLoop_eq_none (peer_data : List (String × ℚ × ℚ × ℚ))
    (h : ∃ x ∈ peer_data, x.2.2.1 * (1 + x.2.2.2) = 0) :
    peLoop peer_data = none := by
  induction peer_data with
  | nil => exact absurd h (by simp)
  | cons a t ih =>
    by_cases ha : a.2.2.1 * (1 + a.2.2.2) = 0
    · simp [peLoop, calculate_implied_pe, ha]
    · obtain ⟨x, hx, hx0⟩ := h
      rcases List.mem_cons.mp hx with rfl | hxt
      · exact absurd hx0 ha
      · simp [peLoop, calculate_implied_pe, ha, ih ⟨x, hxt, hx0⟩]

/-- When the forward EPS for the row's growth rate is nonzero, the inner loop
succeeds and every cell of the row holds `price / (eps * (1 + growth))`. -/
theorem rowLoop_eq_map (p e g : ℚ) (ps : List ℚ) (h : e * (1 + g) ≠ 0) :
    rowLoop p e g ps = some (ps.map (fun _ => p / (e * (1 + g)))) := by
  induction ps with
  | nil => rfl
  | cons a t ih => simp [rowLoop, calculate_implied_pe, h, ih]

/-- When every growth rate keeps the forward EPS nonzero, the outer loop
succeeds and produces one row per growth rate. -/
theorem gridLoop_eq_map (p e : ℚ) (ps gs : List ℚ) (h : ∀ g ∈ gs, e * (1 + g) ≠ 0) :
    gridLoop p e ps gs =
      some (gs.map (fun g => ps.map (fun _ => p / (e * (1 + g))))) := by
  induction gs with
  | nil => rfl
  | cons a t ih =>
    have ha := h a (List.mem_cons_self a t)
    have ht := ih (fun g hg => h g (List.mem_cons_of_mem a hg))
    simp [gridLoop, rowLoop_eq_map p e a ps ha, ht]

/-- On a non-empty list, the embedded `np.median` is the middle element (odd
count) or the average of the two middle elements (even count) of a sorted
permutation of the values. -/
theorem npMedian_sorted_char (l : List ℚ) (hl : l ≠ []) :
    ∃ s : List ℚ, s.Perm l ∧ s.Sorted (· ≤ ·) ∧
      npMedian l = some (if s.length % 2 = 1 then s.getD (s.length / 2) 0
        else (s.getD (s.length / 2 - 1) 0 + s.getD (s.length / 2) 0) / 2) := by
  refine ⟨l.insertionSort (· ≤ ·), List.perm_insertionSort _ l,
    List.sorted_insertionSort _ l, ?_⟩
  simp [npMedian, hl]

/-- C1: for every price, eps and growth_rate such that `eps * (1 + growth_rate)`
is nonzero (and any payout_ratio), `calculate_implied_pe` returns the current
price divided by the forward EPS `eps * (1 + growth_rate)`. -/
theorem C1_implied_pe_formula (price eps growth payout : ℚ)
    (h : eps * (1 + growth) ≠ 0) :
    calculate_implied_pe price eps growth payout =
      some (price / (eps * (1 + growth))) := by
  simp [calculate_implied_pe, h]

/-- Witness for C1 at the worked example of the spec: price 100, eps 5,
growth 10 percent, payout 30 percent. -/
theorem C1_implied_pe_formula_witness :
    (5 : ℚ) * (1 + 1/10) ≠ 0 ∧
      calculate_implied_pe 100 5 (1/10) (3/10) = some (100 / (5 * (1 + 1/10))) :=
  ⟨by norm_num, C1_implied_pe_formula 100 5 (1/10) (3/10) (by norm_num)⟩

/-- C2 counterexample: `calculate_industry_implied_pe` on the empty peer
mapping does not raise (its result is not `none`), contradicting the claim
that the empty-input condition is surfaced as an error. -/
theorem C2_empty_input_does_not_raise :
    calculate_industry_implied_pe [] ≠ none := by
  have h : calculate_industry_implied_pe [] =
      some { individual_multiples := [], median_pe := none } := rfl
  simp [h]

/-- C2 (amended): on the empty peer mapping the call returns normally with an
empty individual-multiples mapping and the NaN sentinel (modelled `none`)
produced by `np.median` of an empty list. -/
theorem C2_empty_input_returns_nan_sentinel :
    calculate_industry_implied_pe [] =
      some { individual_multiples := [], median_pe := none } := rfl

/-- C5: whenever the forward EPS `eps * (1 + growth_rate)` is zero — in
particular at `growth_rate = -1` with nonzero eps — `calculate_implied_pe`
raises the division-by-zero condition (modelled `none`); no guard recovers. -/
theorem C5_implied_pe_div_by_zero (price eps growth payout : ℚ)
    (h : eps * (1 + growth) = 0) :
    calculate_implied_pe price eps growth payout = none := by
  simp [calculate_implied_pe, h]

/-- Witness for C5 at `growth_rate = -1` with nonzero eps. -/
theorem C5_implied_pe_div_by_zero_witness :
    (5 : ℚ) * (1 + (-1)) = 0 ∧ calculate_implied_pe 100 5 (-1) 0 = none :=
  ⟨by norm_num, C5_implied_pe_div_by_zero 100 5 (-1) 0 (by norm_num)⟩

/-- C6: for a fixed price, eps and growth rate with nonzero forward EPS, the
payout_ratio argument has no effect on the result of `calculate_implied_pe`. -/
theorem C6_payout_ratio_no_effect (price eps growth p₁ p₂ : ℚ)
    (h : eps * (1 + growth) ≠ 0) :
    calculate_implied_pe price eps growth p₁ =
      calculate_implied_pe price eps growth p₂ := rfl

/-- Witness for C6: payout 0 versus payout 7/10 at the worked example. -/
theorem C6_payout_ratio_no_effect_witness :
    (5 : ℚ) * (1 + 1/10) ≠ 0 ∧
      calculate_implied_pe 100 5 (1/10) 0 = calculate_implied_pe 100 5 (1/10) (7/10) :=
  ⟨by norm_num, C6_payout_ratio_no_effect 100 5 (1/10) 0 (7/10) (by norm_num)⟩

/-- C8: if any peer of the mapping has a zero forward EPS, the whole
`calculate_industry_implied_pe` call raises division-by-zero (modelled
`none`): no partial result is produced. -/
theorem C8_peer_div_by_zero_propagates (peer_data : List (String × ℚ × ℚ × ℚ))
    (h : ∃ x ∈ peer_data, x.2.2.1 * (1 + x.2.2.2) = 0) :
    calculate_industry_implied_pe peer_data = none := by
  simp [calculate_industry_implied_pe, peLoop_eq_none peer_data h]

/-- Witness for C8: a two-peer mapping whose first peer has growth -1. -/
theorem C8_peer_div_by_zero_propagates_witness :
    (∃ x ∈ [("A", ((100 : ℚ), (5 : ℚ), (-1 : ℚ))), ("B", (80, 4, 1/10))],
        x.2.2.1 * (1 + x.2.2.2) = 0) ∧
      calculate_industry_implied_pe
        [("A", (100, 5, -1)), ("B", (80, 4, 1/10))] = none :=
  ⟨⟨("A", (100, 5, -1)), List.mem_cons_self _ _, by norm_num⟩,
    C8_peer_div_by_zero_propagates _
      ⟨("A", (100, 5, -1)), List.mem_cons_self _ _, by norm_num⟩⟩

/-- C10: `calculate_implied_pe` validates nothing about sign or magnitude:
the call fails exactly when the forward EPS is zero, and for every other
input — negative prices, negative eps, growth below -1 included — it returns
`price / (eps * (1 + growth_rate))`. -/
theorem C10_no_input_validation (price eps growth payout : ℚ) :
    (calculate_implied_pe price eps growth payout = none ↔
        eps * (1 + growth) = 0) ∧
      (eps * (1 + growth) ≠ 0 →
        calculate_implied_pe price eps growth payout =
          some (price / (eps * (1 + growth)))) := by
  by_cases h : eps * (1 + growth) = 0 <;> simp [calculate_implied_pe, h]

/-- Witness for C10 at an input outside the spec domain: negative price,
negative eps and growth below -1 still succeed. -/
theorem C10_no_input_validation_witness :
    (calculate_implied_pe (-100) (-5) (-2) 7 = none ↔
        (-5 : ℚ) * (1 + (-2)) = 0) ∧
      ((-5 : ℚ) * (1 + (-2)) ≠ 0 →
        calculate_implied_pe (-100) (-5) (-2) 7 =
          some ((-100) / ((-5) * (1 + (-2))))) :=
  C10_no_input_validation (-100) (-5) (-2) 7

/-- C4: on a non-empty peer mapping whose forward EPS values are all nonzero,
`calculate_industry_implied_pe` returns the identifier-keyed mapping, in input
order, of each peer's implied PE (payout ratio 0, i.e.
`price / (eps * (1 + growth))`), together with the standard median of those
values: the middle value of a sorted arrangement for an odd count, the
average of the two middle values for an even count. -/
theorem C4_industry_implied_pe_spec (peer_data : List (String × ℚ × ℚ × ℚ))
    (hne : peer_data ≠ [])
    (h : ∀ x ∈ peer_data, x.2.2.1 * (1 + x.2.2.2) ≠ 0) :
    ∃ r, calculate_industry_implied_pe peer_data = some r ∧
      r.individual_multiples =
        peer_data.map (fun x => (x.1, x.2.1 / (x.2.2.1 * (1 + x.2.2.2)))) ∧
      ∃ s : List ℚ, s.Perm (r.individual_multiples.map Prod.snd) ∧
        s.Sorted (· ≤ ·) ∧
        r.median_pe = some (if s.length % 2 = 1 then s.getD (s.length / 2) 0
          else (s.getD (s.length / 2 - 1) 0 + s.getD (s.length / 2) 0) / 2) := by
  have hpe := peLoop_eq_map peer_data h
  obtain ⟨s, hs1, hs2, hs3⟩ := npMedian_sorted_char
    ((peer_data.map (fun x => (x.1, x.2.1 / (x.2.2.1 * (1 + x.2.2.2))))).map Prod.snd)
    (by simp [hne])
  exact ⟨{ individual_multiples :=
            peer_data.map (fun x => (x.1, x.2.1 / (x.2.2.1 * (1 + x.2.2.2)))),
           median_pe := npMedian ((peer_data.map
            (fun x => (x.1, x.2.1 / (x.2.2.1 * (1 + x.2.2.2))))).map Prod.snd) },
    by simp [calculate_industry_implied_pe, hpe], rfl, s, hs1, hs2, hs3⟩

/-- Witness for C4 at the three-peer example of the spec. -/
theorem C4_industry_implied_pe_spec_witness :
    ∃ r, calculate_industry_implied_pe
        [("A", ((100 : ℚ), (5 : ℚ), (1/10 : ℚ))), ("B", (80, 4, 2/25)),
          ("C", (120, 6, 3/25))] = some r ∧
      r.individual_multiples =
        [("A", ((100 : ℚ), (5 : ℚ), (1/10 : ℚ))), ("B", (80, 4, 2/25)),
          ("C", (120, 6, 3/25))].map
          (fun x => (x.1, x.2.1 / (x.2.2.1 * (1 + x.2.2.2)))) ∧
      ∃ s : List ℚ, s.Perm (r.individual_multiples.map Prod.snd) ∧
        s.Sorted (· ≤ ·) ∧
        r.median_pe = some (if s.length % 2 = 1 then s.getD (s.length / 2) 0
          else (s.getD (s.length / 2 - 1) 0 + s.getD (s.length / 2) 0) / 2) :=
  C4_industry_implied_pe_spec _ (by simp)
    (by norm_num [List.forall_mem_cons])

/-- C7: the median reported by `calculate_industry_implied_pe` is invariant
under permutation of the peer mapping's entries (for non-empty mappings with
all forward EPS nonzero, where the call succeeds). -/
theorem C7_median_permutation_invariant (d₁ d₂ : List (String × ℚ × ℚ × ℚ))
    (hperm : d₁.Perm d₂) (hne : d₁ ≠ [])
    (h : ∀ x ∈ d₁, x.2.2.1 * (1 + x.2.2.2) ≠ 0) :
    ∃ r₁ r₂, calculate_industry_implied_pe d₁ = some r₁ ∧
      calculate_industry_implied_pe d₂ = some r₂ ∧
      r₁.median_pe = r₂.median_pe := by
  have h₂ : ∀ x ∈ d₂, x.2.2.1 * (1 + x.2.2.2) ≠ 0 :=
    fun x hx => h x (hperm.mem_iff.mpr hx)
  have hp₁ := peLoop_eq_map d₁ h
  have hp₂ := peLoop_eq_map d₂ h₂
  refine ⟨{ individual_multiples :=
              d₁.map (fun x => (x.1, x.2.1 / (x.2.2.1 * (1 + x.2.2.2)))),
            median_pe := npMedian ((d₁.map
              (fun x => (x.1, x.2.1 / (x.2.2.1 * (1 + x.2.2.2))))).map Prod.snd) },
          { individual_multiples :=
              d₂.map (fun x => (x.1, x.2.1 / (x.2.2.1 * (1 + x.2.2.2)))),
            median_pe := npMedian ((d₂.map
              (fun x => (x.1, x.2.1 / (x.2.2.1 * (1 + x.2.2.2))))).map Prod.snd) },
    by simp [calculate_industry_implied_pe, hp₁],
    by simp [calculate_industry_implied_pe, hp₂], ?_⟩
  exact npMedian_perm
    ((hperm.map (fun x => (x.1, x.2.1 / (x.2.2.1 * (1 + x.2.2.2))))).map Prod.snd)

/-- Witness for C7: a two-peer mapping and its reversal. -/
theorem C7_median_permutation_invariant_witness :
    ∃ r₁ r₂, calculate_industry_implied_pe
        [("A", ((100 : ℚ), (5 : ℚ), (1/10 : ℚ))), ("B", (80, 4, 2/25))] = some r₁ ∧
      calculate_industry_implied_pe
        [("B", ((80 : ℚ), (4 : ℚ), (2/25 : ℚ))), ("A", (100, 5, 1/10))] = some r₂ ∧
      r₁.median_pe = r₂.median_pe :=
  C7_median_permutation_invariant _ _
    (List.Perm.swap _ _ _) (by simp) (by norm_num [List.forall_mem_cons])

/-- C3: whenever every growth scenario keeps the forward EPS nonzero, the
sensitivity analysis returns a dense matrix of exactly one row per growth
rate (outer dimension) and one entry per payout ratio in each row, the cell
at row i, column j being the value `calculate_implied_pe` returns for
`growth_rates[i]` and `payout_ratios[j]`; duplicate scenario values each get
their own row or column. -/
theorem C3_sensitivity_grid_shape_and_cells (p e : ℚ) (gs ps : List ℚ)
    (h : ∀ g ∈ gs, e * (1 + g) ≠ 0) :
    ∃ T, sensitivity_analysis p e gs ps = some T ∧
      T.values.length = gs.length ∧
      (∀ row ∈ T.values, row.length = ps.length) ∧
      ∀ i j, i < gs.length → j < ps.length →
        some ((T.values.getD i []).getD j 0) =
          calculate_implied_pe p e (gs.getD i 0) (ps.getD j 0) := by
  have hg := gridLoop_eq_map p e ps gs h
  refine ⟨{ values := gs.map (fun g => ps.map (fun _ => p / (e * (1 + g)))),
            index := gs.map formatPercent,
            columns := ps.map formatPercent },
    by simp [sensitivity_analysis, hg], by simp, ?_, ?_⟩
  · intro row hrow
    obtain ⟨g, hg', rfl⟩ := List.mem_map.mp hrow
    simp
  · intro i j hi hj
    have hgi : gs.getD i 0 = gs[i] := List.getD_eq_getElem gs 0 hi
    have hrow : ((gs.map (fun g => ps.map (fun _ => p / (e * (1 + g))))).getD i []) =
        ps.map (fun _ => p / (e * (1 + gs[i]))) := by
      rw [List.getD_eq_getElem _ _ (by simpa using hi), List.getElem_map]
    have hcell : ((ps.map (fun _ => p / (e * (1 + gs[i])))).getD j 0) =
        p / (e * (1 + gs[i])) := by
      rw [List.getD_eq_getElem _ _ (by simpa using hj), List.getElem_map]
    have hne := h gs[i] (gs.getElem_mem hi)
    simp only [hrow, hcell, hgi]
    simp [calculate_implied_pe, hne]

/-- Witness for C3: a 2 by 1 grid of scenarios. -/
theorem C3_sensitivity_grid_shape_and_cells_witness :
    ∃ T, sensitivity_analysis 100 5 [1/10, 1/5] [3/10] = some T ∧
      T.values.length = [(1:ℚ)/10, 1/5].length ∧
      (∀ row ∈ T.values, row.length = [(3:ℚ)/10].length) ∧
      ∀ i j, i < [(1:ℚ)/10, 1/5].length → j < [(3:ℚ)/10].length →
        some ((T.values.getD i []).getD j 0) =
          calculate_implied_pe 100 5 ([(1:ℚ)/10, 1/5].getD i 0)
            ([(3:ℚ)/10].getD j 0) :=
  C3_sensitivity_grid_shape_and_cells 100 5 [1/10, 1/5] [3/10]
    (by norm_num [List.forall_mem_cons])

/-- C9: whenever the sensitivity analysis returns a table, its row labels are
the growth rates formatted as one-decimal percentages in input order, its
column labels the payout ratios formatted likewise; 1/10 formats as "10.0%". -/
theorem C9_grid_labels (p e : ℚ) (gs ps : List ℚ) (T : SensitivityResult)
    (h : sensitivity_analysis p e gs ps = some T) :
    T.index = gs.map formatPercent ∧ T.columns = ps.map formatPercent ∧
      formatPercent (1/10) = "10.0%" := by
  unfold sensitivity_analysis at h
  rw [Option.map_eq_some'] at h
  obtain ⟨m, hm, rfl⟩ := h
  refine ⟨rfl, rfl, ?_⟩
  norm_num [formatPercent, roundHalfEven]
  rfl

/-- Witness for C9 at a 1 by 1 grid. -/
theorem C9_grid_labels_witness :
    ({ values := [[200/11]], index := [formatPercent (1/10)],
        columns := [formatPercent (3/10)] } : SensitivityResult).index =
        [(1:ℚ)/10].map formatPercent ∧
      ({ values := [[200/11]], index := [formatPercent (1/10)],
          columns := [formatPercent (3/10)] } : SensitivityResult).columns =
        [(3:ℚ)/10].map formatPercent ∧
      formatPercent (1/10) = "10.0%" :=
  C9_grid_labels 100 5 [1/10] [3/10] _
    (by norm_num [sensitivity_analysis, gridLoop, rowLoop, calculate_implied_pe])

